import Mathlib

/-!
Verification of the codeation/aw failover controller against its
natural-language specification.

The development shallowly embeds the two source files:

* `aw.go` (final revision): `isAddrEqual`, the per-cycle `watch` loop
  (modelled as a pure decision function over the resolver results and the
  batch of probe results), and the switch emissions.
* `cf.go`: the CloudFlare record synchronizer (`loadRecords`, `setRecords`,
  `createRecords`, `deleteRecords`, `loadZone`, `moveRecords`,
  `moveRecordsIPv6`), modelled over an abstract record-store API threaded
  as explicit state.  A faithful concrete store `cfStore` instantiates it.

Machine details abstracted: durations and timestamps are `Int` (Go
`time.Duration` / Unix seconds; the 10-minute cooldown window is 600
seconds), record ids are `Nat` (opaque strings in the source), and the
RFC3339 timestamp parse of a loaded record is the identity (timestamps are
carried as integers end to end).
-/

/-! ### Go `net.ParseIP`

`isAddrEqual` in `aw.go` is built on `net.ParseIP` and `net.IP.Equal`.  We
model `ParseIP` after the Go standard library (`net/netip` based, as in
current Go): the first of `.`, `:`, `%` routes to the IPv4 or IPv6 parser;
a parsed address is its 16-byte form (IPv4 mapped into `::ffff:a.b.c.d`),
so `IP.Equal` of two parsed addresses is byte equality.  Strings carrying
a `%` zone are rejected by `net.ParseIP` (it refuses a non-empty zone, and
an empty zone is a parse error), so any string containing `%` parses to
`none`. -/

/-- First of the marker characters that decides the parse family,
mirroring the dispatch loop of `net.ParseIP`. -/
def findMarker : List Char → Option Char
  | [] => none
  | c :: rest => if c = '.' ∨ c = ':' ∨ c = '%' then some c else findMarker rest

/-- Field loop of `netip.parseIPv4`: dotted-decimal, exactly four octets,
each 0..255, no leading zeros.  `val`/`digLen` are the current field's
value and digit count, `fields` the completed octets in reverse. -/
def parseV4Loop : List Char → Nat → Nat → List Nat → Option (List Nat)
  | [], val, _, fields =>
    if fields.length < 3 then none else some (fields.reverse ++ [val])
  | c :: rest, val, digLen, fields =>
    if '0' ≤ c ∧ c ≤ '9' then
      if digLen = 1 ∧ val = 0 then none
      else
        let val2 := val * 10 + (c.toNat - '0'.toNat)
        if 255 < val2 then none
        else parseV4Loop rest val2 (digLen + 1) fields
    else if c = '.' then
      if digLen = 0 ∨ rest = [] then none
      else if fields.length = 3 then none
      else parseV4Loop rest 0 0 (val :: fields)
    else none

/-- The 12-byte `::ffff:` mapping under which Go stores an IPv4 address in
16-byte form. -/
def v4InV6 : List Nat := [0, 0, 0, 0, 0, 0, 0, 0, 0, 0, 255, 255]

/-- `netip.parseIPv4`, returning the 16-byte (IPv4-mapped) form. -/
def parseIPv4 (s : List Char) : Option (List Nat) :=
  (parseV4Loop s 0 0 []).map (fun f => v4InV6 ++ f)

/-- One hexadecimal digit, as in the group scan of `netip.parseIPv6`. -/
def hexDigit (c : Char) : Option Nat :=
  if '0' ≤ c ∧ c ≤ '9' then some (c.toNat - '0'.toNat)
  else if 'a' ≤ c ∧ c ≤ 'f' then some (c.toNat - 'a'.toNat + 10)
  else if 'A' ≤ c ∧ c ≤ 'F' then some (c.toNat - 'A'.toNat + 10)
  else none

/-- Hex-group scan of `netip.parseIPv6`: accumulates hex digits, stopping
at the first non-hex character; a fifth digit in one group is an error
(`none`).  Returns the value, the digit count and the rest. -/
def scanHex : List Char → Nat → Nat → Option (Nat × Nat × List Char)
  | [], acc, off => some (acc, off, [])
  | c :: rest, acc, off =>
    match hexDigit c with
    | none => some (acc, off, c :: rest)
    | some d => if 3 < off then none else scanHex rest (acc * 16 + d) (off + 1)

/-- End of `netip.parseIPv6`: the whole string must be consumed; a short
address needs an ellipsis, which expands to zero bytes at its position; an
ellipsis in a full-length address is an error. -/
def v6Finish (s : List Char) (bytes : List Nat) (ellip : Option Nat) : Option (List Nat) :=
  if s ≠ [] then none
  else if bytes.length < 16 then
    match ellip with
    | none => none
    | some e => some (bytes.take e ++ List.replicate (16 - bytes.length) 0 ++ bytes.drop e)
  else
    match ellip with
    | some _ => none
    | none => some bytes

/-- Main loop of `netip.parseIPv6`.  `bytes` holds the bytes parsed so
far, `ellip` the position of the `::` if one was seen.  A `.` after a hex
group switches to an embedded IPv4 tail (re-parsing from the start of the
group, as the Go code does).  Fuel only bounds the recursion; the initial
fuel of `length + 1` always suffices since every round consumes at least
one character. -/
def parseV6Loop : Nat → List Char → List Nat → Option Nat → Option (List Nat)
  | 0, _, _, _ => none
  | fuel + 1, s, bytes, ellip =>
    if 16 ≤ bytes.length then v6Finish s bytes ellip
    else
      match scanHex s 0 0 with
      | none => none
      | some (acc, off, rest) =>
        if off = 0 then none
        else
          match rest with
          | '.' :: _ =>
            if ellip = none ∧ bytes.length ≠ 12 then none
            else if 16 < bytes.length + 4 then none
            else
              match parseV4Loop s 0 0 [] with
              | none => none
              | some f => v6Finish [] (bytes ++ f) ellip
          | _ =>
            let bytes2 := bytes ++ [acc / 256, acc % 256]
            match rest with
            | [] => v6Finish [] bytes2 ellip
            | [':'] => none
            | ':' :: ':' :: rest2 =>
              if ellip.isSome then none
              else if rest2 = [] then v6Finish [] bytes2 (some bytes2.length)
              else parseV6Loop fuel rest2 bytes2 (some bytes2.length)
            | ':' :: rest2 => parseV6Loop fuel rest2 bytes2 ellip
            | _ => none

/-- `netip.parseIPv6`: a leading `::` is handled before the loop, and a
bare `::` is the unspecified address. -/
def parseV6 (s : List Char) : Option (List Nat) :=
  match s with
  | ':' :: ':' :: rest =>
    if rest = [] then some (List.replicate 16 0)
    else parseV6Loop (rest.length + 1) rest [] (some 0)
  | _ => parseV6Loop (s.length + 1) s [] none

/-- `net.ParseIP`, as the 16-byte form of the address, or `none` when the
string does not parse (including any string containing a `%` zone). -/
def parseIP (s : String) : Option (List Nat) :=
  match findMarker s.data with
  | some '.' => parseIPv4 s.data
  | some ':' => if s.data.contains '%' then none else parseV6 s.data
  | _ => none

/-- `isAddrEqual` from `aw.go`:
`if rightIP == nil then leftIP == nil else rightIP.Equal(leftIP)`.
Both parsed addresses being 16-byte forms, `Equal` is byte equality, and
`Equal` against a `nil` left side is false. -/
def isAddrEqual (left right : String) : Bool :=
  match parseIP right with
  | none => (parseIP left).isNone
  | some rightBytes =>
    match parseIP left with
    | none => false
    | some leftBytes => decide (leftBytes = rightBytes)

example : isAddrEqual "" "" = true := by decide
example : isAddrEqual "" "1.2.3.4" = false := by decide
example : isAddrEqual "1.2.3.4" "1.2.3.4" = true := by decide
example : isAddrEqual "::ffff:1.2.3.4" "1.2.3.4" = true := by decide
example : isAddrEqual "2001:0db8::1" "2001:db8::1" = true := by decide
example : parseIP "010.0.0.1" = none := by decide
example : parseIP "::1" = some [0,0,0,0,0,0,0,0,0,0,0,0,0,0,0,1] := by decide
example : parseIP "2001:db8::1" =
    some [32,1,13,184,0,0,0,0,0,0,0,0,0,0,0,1] := by decide
example : parseIP "1:2:3:4:5:6:7:8:9" = none := by decide
example : parseIP "fe80::1%eth0" = none := by decide
example : parseIP "1.2.3.4.5" = none := by decide
example : parseIP "::1.2.3.4" =
    some [0,0,0,0,0,0,0,0,0,0,0,0,1,2,3,4] := by decide
example : parseIP "255.255.255.255" =
    some [0,0,0,0,0,0,0,0,0,0,255,255,255,255,255,255] := by decide
example : parseIP "256.1.1.1" = none := by decide
example : parseIP "1::2::3" = none := by decide
example : parseIP "1:2:3:4:5:6:7:8" =
    some [0,1,0,2,0,3,0,4,0,5,0,6,0,7,0,8] := by decide
example : parseIP "::" = some (List.replicate 16 0) := by decide
example : parseIP "abcd" = none := by decide

/-! ### The watch loop of `aw.go` (decision engine)

One cycle of `config.watch` resolves the domain per family, probes every
node, and folds the probe batch into the selected/fastest bookkeeping
before emitting at most one IPv4 switch (`moveRecords`) and at most one
IPv6 switch (`moveRecordsIPv6`).  The fold and the emission conditions are
translated directly; probing and resolving are the cycle's inputs. -/

/-- A configured node (`node` in `aw.go`). -/
structure node where
  name : String
  ip : String
  ipv6 : String
deriving DecidableEq, Repr

/-- One probe outcome, the pair returned by `config.checkNode`. -/
structure probeResult where
  ok : Bool
  timeout : Int
deriving DecidableEq, Repr

/-- The mutable locals of the `watch` loop body. -/
structure watchState where
  selectedIPv6 : String
  selectedNode : String
  minIP : String
  minIPv6 : String
  minNode : String
  minTimeout : Int
deriving DecidableEq, Repr

/-- One iteration of the `for _, n := range cfg.nodes` loop: record the
acting node when its address matches the advertised IPv4 and it answered,
then track the fastest healthy node under the running minimum. -/
def watchStep (actualIP : String) (st : watchState) (n : node) (p : probeResult) :
    watchState :=
  let st1 :=
    if isAddrEqual n.ip actualIP = true ∧ p.ok = true then
      { st with selectedIPv6 := n.ipv6, selectedNode := n.name }
    else st
  if p.ok = true ∧ p.timeout < st1.minTimeout then
    { st1 with minIP := n.ip, minIPv6 := n.ipv6, minNode := n.name,
               minTimeout := p.timeout }
  else st1

/-- The whole node loop of `watch`. -/
def watchLoop (actualIP : String) : watchState → List (node × probeResult) → watchState
  | st, [] => st
  | st, (n, p) :: rest => watchLoop actualIP (watchStep actualIP st n p) rest

/-- Initial loop locals: empty strings, `minTimeout = cfg.timeout`. -/
def watchInit (cfgTimeout : Int) : watchState :=
  { selectedIPv6 := "", selectedNode := "", minIP := "", minIPv6 := "",
    minNode := "", minTimeout := cfgTimeout }

/-- The switches a cycle emits: the targets handed to `moveRecords` and
`moveRecordsIPv6` respectively (`none` when the call is not made). -/
structure decision where
  switchIPv4 : Option String
  switchIPv6 : Option String
deriving DecidableEq, Repr

/-- The emission conditions at the end of `watch` (aw.go:412-432):
an IPv6 adjustment for a healthy acting node, an IPv4 switch to the
fastest node when the acting node failed or is absent, and the fastest
node's IPv6 in that case. -/
def watchDecide (actualIP actualIPv6 : String) (cfgTimeout : Int)
    (nps : List (node × probeResult)) : decision :=
  let st := watchLoop actualIP (watchInit cfgTimeout) nps
  { switchIPv4 :=
      if st.selectedNode = "" ∧ st.minIP ≠ "" then some st.minIP else none
    switchIPv6 :=
      if st.selectedNode ≠ "" ∧ isAddrEqual st.selectedIPv6 actualIPv6 = false then
        some st.selectedIPv6
      else if st.selectedNode = "" ∧ isAddrEqual st.minIPv6 actualIPv6 = false then
        some st.minIPv6
      else none }

/-- A full cycle including the resolver step (aw.go:363-368): an IPv4
lookup error aborts the cycle (`none`); an IPv6 lookup error is ignored
(`actualIPv6, _ := lookupDomainIPv6(...)`), the lookup's empty-string
result standing in for the address. -/
def watchCycle (lookupIPv4 lookupIPv6 : Except String String) (cfgTimeout : Int)
    (nps : List (node × probeResult)) : Option decision :=
  match lookupIPv4 with
  | .error _ => none
  | .ok actualIP =>
    let actualIPv6 := match lookupIPv6 with
      | .error _ => ""
      | .ok a => a
    some (watchDecide actualIP actualIPv6 cfgTimeout nps)

/-! ### The record synchronizer of `cf.go`

The remote Record Store is threaded as explicit state `σ` behind an
abstract API; the synchronizer's control flow is translated from `cf.go`
on top of it.  Errors mirror the Go values: the sentinel `errNotFound`
and `errors.New` messages. -/

/-- A loaded zone record (`cfRecord` in `cf.go`); the opaque string id is
modelled as a `Nat`, the `modified_on` timestamp as Unix seconds. -/
structure cfRecord where
  id : Nat
  content : String
  modified : Int
deriving DecidableEq, Repr

/-- Go errors as compared in `cf.go`: the identity-compared sentinel
`errNotFound` and fresh `errors.New` message errors. -/
inductive cfError where
  | notFound
  | msg (text : String)
deriving DecidableEq, Repr

/-- The Record Store API used by `cfAccount.request` calls, as state
transformers on an abstract store state.  `create` and `update` return the
content the store echoes back (`record.Result.Content`). -/
structure storeAPI (σ : Type) where
  zonesFor : σ → String → List String
  listFor : σ → String → String → List cfRecord
  create : σ → String → String → String → σ × String
  update : σ → Nat → String → String → String → σ × String
  delete : σ → Nat → σ

/-- The record name to full DNS name mapping used throughout `cf.go`:
`name + "." + domain`, with `@` standing for the bare domain. -/
def fullname (domain nm : String) : String :=
  if nm = "@" then domain else nm ++ "." ++ domain

/-- `cfAccount.loadRecords`: one GET per name; an empty result array for
any name is the sentinel `errNotFound`; otherwise the first result is
kept under that name. -/
def loadRecords (api : storeAPI σ) (st : σ) (domain : String) (recordType : String) :
    List String → Except cfError (List (String × cfRecord))
  | [] => .ok []
  | nm :: rest =>
    match api.listFor st recordType (fullname domain nm) with
    | [] => .error .notFound
    | r :: _ =>
      match loadRecords api st domain recordType rest with
      | .error e => .error e
      | .ok m => .ok ((nm, r) :: m)

/-- Go map indexing `records[name]`, including the zero-value result for
a missing key (`content` empty, `modified` the zero `time.Time`, i.e.
January 1 of year 1). -/
def goZeroTime : Int := -62135596800

/-- Lookup in the loaded record map, with the Go zero value for a missing
key. -/
def mapGet (records : List (String × cfRecord)) (key : String) : cfRecord :=
  match records.find? (fun p => p.1 == key) with
  | some p => p.2
  | none => { id := 0, content := "", modified := goZeroTime }

/-- The 10-minute cooldown window of `cf.go`, in seconds. -/
def tenMinutes : Int := 600

/-- `cfAccount.setRecords`: one PUT per loaded record; the echoed content
must address-equal the requested ip, otherwise the error names the value
still stored.  State already written before a failure persists. -/
def setRecords (api : storeAPI σ) (ip recordType domain : String) :
    σ → List (String × cfRecord) → Except cfError Unit × σ
  | st, [] => (.ok (), st)
  | st, (nm, r) :: rest =>
    if isAddrEqual (api.update st r.id recordType (fullname domain nm) ip).2 ip = true then
      setRecords api ip recordType domain
        (api.update st r.id recordType (fullname domain nm) ip).1 rest
    else
      (.error (.msg ("set record " ++ nm ++ " to " ++ ip ++ " error, still "
          ++ (api.update st r.id recordType (fullname domain nm) ip).2)),
       (api.update st r.id recordType (fullname domain nm) ip).1)

/-- `cfAccount.createRecords`: one POST per configured name, with the same
echo verification as `setRecords`. -/
def createRecords (api : storeAPI σ) (ip recordType domain : String) :
    σ → List String → Except cfError Unit × σ
  | st, [] => (.ok (), st)
  | st, nm :: rest =>
    if isAddrEqual (api.create st recordType (fullname domain nm) ip).2 ip = true then
      createRecords api ip recordType domain
        (api.create st recordType (fullname domain nm) ip).1 rest
    else
      (.error (.msg ("set record " ++ nm ++ " to " ++ ip ++ " error, still "
          ++ (api.create st recordType (fullname domain nm) ip).2)),
       (api.create st recordType (fullname domain nm) ip).1)

/-- `cfAccount.deleteRecords`: one DELETE per loaded record. -/
def deleteRecords (api : storeAPI σ) :
    σ → List (String × cfRecord) → Except cfError Unit × σ
  | st, [] => (.ok (), st)
  | st, (_, r) :: rest => deleteRecords api (api.delete st r.id) rest

/-- `cfAccount.loadZone`: the zone list for the domain must have exactly
one entry. -/
def loadZone (api : storeAPI σ) (st : σ) (domain : String) : Except cfError Unit :=
  match api.zonesFor st domain with
  | [_] => .ok ()
  | _ => .error (.msg "unknown CF format")

/-- The account data the synchronizer needs (`cfAccount`): the domain and
the configured record names. -/
structure cfAccount where
  domain : String
  names : List String
deriving DecidableEq, Repr

/-- `moveRecords` (A family): load zone and records, assert the source
against the anchor record, apply the cooldown guard, then update. -/
def moveRecords (api : storeAPI σ) (st : σ) (acc : cfAccount) (now : Int)
    (sourceIP targetIP : String) : Except cfError Unit × σ :=
  match loadZone api st acc.domain with
  | .error e => (.error e, st)
  | .ok _ =>
    match loadRecords api st acc.domain "A" acc.names with
    | .error e => (.error e, st)
    | .ok records =>
      if sourceIP ≠ "" ∧ isAddrEqual (mapGet records "@").content sourceIP = false then
        (.error (.msg ("stated IP is " ++ (mapGet records "@").content)), st)
      else if now - (mapGet records "@").modified < tenMinutes then
        (.error (.msg "record updated recently"), st)
      else setRecords api targetIP "A" acc.domain st records

/-- `moveRecordsIPv6` (AAAA family): a not-found load creates records for
a non-empty target and is a no-op for an empty one; a found load updates
under the cooldown guard for a non-empty target and deletes immediately
for an empty one.  The source argument is never consulted. -/
def moveRecordsIPv6 (api : storeAPI σ) (st : σ) (acc : cfAccount) (now : Int)
    (sourceIPv6 targetIPv6 : String) : Except cfError Unit × σ :=
  match loadZone api st acc.domain with
  | .error e => (.error e, st)
  | .ok _ =>
    match loadRecords api st acc.domain "AAAA" acc.names with
    | .error .notFound =>
      if targetIPv6 ≠ "" then createRecords api targetIPv6 "AAAA" acc.domain st acc.names
      else (.ok (), st)
    | .error e => (.error e, st)
    | .ok records =>
      if targetIPv6 ≠ "" then
        if now - (mapGet records "@").modified < tenMinutes then
          (.error (.msg "record updated recently"), st)
        else setRecords api targetIPv6 "AAAA" acc.domain st records
      else deleteRecords api st records

/-! ### A faithful concrete Record Store

`cfStore now` applies every request exactly: list returns the matching
records in store order, create appends a fresh record stamped `now`,
update rewrites the addressed record and stamps it `now`, delete removes
it; create and update echo the content they stored. -/

/-- One remote zone record with its indexing data. -/
structure storeRecord where
  id : Nat
  rtype : String
  rname : String
  content : String
  modified : Int
deriving DecidableEq, Repr

/-- The remote store state: the zone list for the domain, the records and
the next fresh id. -/
structure store where
  zones : List String
  recs : List storeRecord
  nextId : Nat
deriving DecidableEq, Repr

/-- The faithful store semantics at wall-clock `now`. -/
def cfStore (now : Int) : storeAPI store where
  zonesFor st _ := st.zones
  listFor st rtype rname :=
    (st.recs.filter (fun r => r.rtype == rtype && r.rname == rname)).map
      (fun r => { id := r.id, content := r.content, modified := r.modified })
  create st rtype rname content :=
    ({ st with recs := st.recs ++ [⟨st.nextId, rtype, rname, content, now⟩],
               nextId := st.nextId + 1 }, content)
  update st rid rtype rname content :=
    ({ st with recs := st.recs.map (fun r =>
        if r.id = rid then ⟨rid, rtype, rname, content, now⟩ else r) }, content)
  delete st rid := { st with recs := st.recs.filter (fun r => r.id != rid) }

/-- A store whose writes echo a fixed divergent value: the remote end
accepts a write but reports different stored content. -/
def skewStore (echo : String) : storeAPI Unit where
  zonesFor _ _ := ["zone1"]
  listFor _ _ _ := []
  create _ _ _ _ := ((), echo)
  update _ _ _ _ _ := ((), echo)
  delete _ _ := ()

/-! ### Helper lemmas about the watch loop -/

theorem isAddrEqual_refl (s : String) : isAddrEqual s s = true := by
  cases h : parseIP s with
  | none => simp [isAddrEqual, h]
  | some b => simp [isAddrEqual, h]

/-- Explicit four-way form of `watchStep`. -/
theorem watchStep_eq (a : String) (st : watchState) (n : node) (p : probeResult) :
    watchStep a st n p =
      if isAddrEqual n.ip a = true ∧ p.ok = true then
        if p.timeout < st.minTimeout then
          ⟨n.ipv6, n.name, n.ip, n.ipv6, n.name, p.timeout⟩
        else ⟨n.ipv6, n.name, st.minIP, st.minIPv6, st.minNode, st.minTimeout⟩
      else
        if p.ok = true ∧ p.timeout < st.minTimeout then
          ⟨st.selectedIPv6, st.selectedNode, n.ip, n.ipv6, n.name, p.timeout⟩
        else st := by
  by_cases h1 : isAddrEqual n.ip a = true ∧ p.ok = true
  · by_cases h2 : p.timeout < st.minTimeout
    · simp [watchStep, h1, h1.1, h1.2, h2]
    · simp [watchStep, h1, h1.1, h1.2, h2]
  · by_cases hk : p.ok = true
    · have ha : ¬ isAddrEqual n.ip a = true := fun hA => h1 ⟨hA, hk⟩
      by_cases h2 : p.timeout < st.minTimeout
      · simp [watchStep, ha, hk, h2]
      · simp [watchStep, ha, hk, h2]
    · simp [watchStep, hk]

theorem watchStep_selected_accept (a : String) (st : watchState) (n : node)
    (p : probeResult) (h : isAddrEqual n.ip a = true ∧ p.ok = true) :
    (watchStep a st n p).selectedNode = n.name ∧
    (watchStep a st n p).selectedIPv6 = n.ipv6 := by
  rw [watchStep_eq]
  by_cases h2 : p.timeout < st.minTimeout <;> simp [h, h2]

theorem watchStep_selected_reject (a : String) (st : watchState) (n : node)
    (p : probeResult) (h : ¬(isAddrEqual n.ip a = true ∧ p.ok = true)) :
    (watchStep a st n p).selectedNode = st.selectedNode ∧
    (watchStep a st n p).selectedIPv6 = st.selectedIPv6 := by
  rw [watchStep_eq]
  by_cases hk : p.ok = true
  · have ha : ¬ isAddrEqual n.ip a = true := fun hA => h ⟨hA, hk⟩
    by_cases h2 : p.timeout < st.minTimeout <;> simp [ha, hk, h2]
  · simp [hk]

theorem watchStep_min_accept (a : String) (st : watchState) (n : node)
    (p : probeResult) (h : p.ok = true ∧ p.timeout < st.minTimeout) :
    (watchStep a st n p).minIP = n.ip ∧ (watchStep a st n p).minIPv6 = n.ipv6 ∧
    (watchStep a st n p).minTimeout = p.timeout := by
  rw [watchStep_eq]
  by_cases h1 : isAddrEqual n.ip a = true
  · simp [h1, h.1, h.2]
  · simp [h1, h.1, h.2]

theorem watchStep_min_reject (a : String) (st : watchState) (n : node)
    (p : probeResult) (h : ¬(p.ok = true ∧ p.timeout < st.minTimeout)) :
    (watchStep a st n p).minIP = st.minIP ∧ (watchStep a st n p).minIPv6 = st.minIPv6 ∧
    (watchStep a st n p).minTimeout = st.minTimeout := by
  rw [watchStep_eq]
  by_cases hk : p.ok = true
  · have h2 : ¬ p.timeout < st.minTimeout := fun hlt => h ⟨hk, hlt⟩
    by_cases h1 : isAddrEqual n.ip a = true <;> simp [h1, hk, h2]
  · have h1 : ¬ (isAddrEqual n.ip a = true ∧ p.ok = true) := fun hx => hk hx.2
    simp [h1, hk]

/-- A batch in which every probe failed leaves the loop state untouched. -/
theorem watchLoop_all_fail (a : String) (nps : List (node × probeResult)) :
    ∀ st, (∀ np ∈ nps, np.2.ok = false) → watchLoop a st nps = st := by
  induction nps with
  | nil => intro st _; rfl
  | cons hd tl ih =>
    obtain ⟨n, p⟩ := hd
    intro st h
    rw [List.forall_mem_cons] at h
    have hok : p.ok = false := h.1
    have hstep : watchStep a st n p = st := by
      rw [watchStep_eq]
      simp [hok]
    show watchLoop a (watchStep a st n p) tl = st
    rw [hstep]
    exact ih st h.2

/-- If no node both matches the advertised IPv4 and is healthy, the
selected-node fields survive the loop. -/
theorem watchLoop_selected_of_no_match (a : String) (nps : List (node × probeResult)) :
    ∀ st, (∀ np ∈ nps, isAddrEqual np.1.ip a = true → np.2.ok = false) →
      (watchLoop a st nps).selectedNode = st.selectedNode ∧
      (watchLoop a st nps).selectedIPv6 = st.selectedIPv6 := by
  induction nps with
  | nil => intro st _; exact ⟨rfl, rfl⟩
  | cons hd tl ih =>
    obtain ⟨n, p⟩ := hd
    intro st h
    rw [List.forall_mem_cons] at h
    have hrej : ¬(isAddrEqual n.ip a = true ∧ p.ok = true) := by
      rintro ⟨hm, hk⟩
      rw [h.1 hm] at hk
      exact Bool.false_ne_true hk
    have hsel := watchStep_selected_reject a st n p hrej
    have := ih (watchStep a st n p) h.2
    exact ⟨this.1.trans hsel.1, this.2.trans hsel.2⟩

/-- Once some matching healthy node with a non-empty name is in the batch
(or the state already carries one), the loop ends with a non-empty
selected node. -/
theorem watchLoop_selected_ne (a : String) (nps : List (node × probeResult)) :
    ∀ st, ((∃ np ∈ nps, isAddrEqual np.1.ip a = true ∧ np.2.ok = true) ∨
           st.selectedNode ≠ "") →
      (∀ np ∈ nps, isAddrEqual np.1.ip a = true → np.2.ok = true → np.1.name ≠ "") →
      (watchLoop a st nps).selectedNode ≠ "" := by
  induction nps with
  | nil =>
    intro st h _
    rcases h with ⟨np, hm, _⟩ | h
    · cases hm
    · exact h
  | cons hd tl ih =>
    obtain ⟨n, p⟩ := hd
    intro st h hnames
    rw [List.forall_mem_cons] at hnames
    show (watchLoop a (watchStep a st n p) tl).selectedNode ≠ ""
    by_cases hc : isAddrEqual n.ip a = true ∧ p.ok = true
    · have hsel := watchStep_selected_accept a st n p hc
      refine ih (watchStep a st n p) (Or.inr ?_) hnames.2
      rw [hsel.1]
      exact hnames.1 hc.1 hc.2
    · have hsel := watchStep_selected_reject a st n p hc
      refine ih (watchStep a st n p) ?_ hnames.2
      rcases h with ⟨np, hm, hnp⟩ | h
      · rcases List.mem_cons.mp hm with heq | hm'
        · subst heq
          exact absurd hnp hc
        · exact Or.inl ⟨np, hm', hnp⟩
      · refine Or.inr ?_
        rw [hsel.1]
        exact h

/-- Characterization of the fastest-node fold: either no healthy probe
beat the running minimum and the min fields are untouched, or the final
min fields come from the first batch entry achieving the minimal latency
below the initial bound: strictly faster than every healthy entry before
it, at least as fast as every healthy entry after it. -/
theorem watchLoop_min (a : String) (nps : List (node × probeResult)) :
    ∀ st : watchState,
      ((watchLoop a st nps).minIP = st.minIP ∧
       (watchLoop a st nps).minIPv6 = st.minIPv6 ∧
       (watchLoop a st nps).minTimeout = st.minTimeout ∧
       ∀ np ∈ nps, np.2.ok = true → ¬ np.2.timeout < st.minTimeout) ∨
      (∃ l1 n p l2, nps = l1 ++ (n, p) :: l2 ∧ p.ok = true ∧
        p.timeout < st.minTimeout ∧
        (watchLoop a st nps).minIP = n.ip ∧
        (watchLoop a st nps).minIPv6 = n.ipv6 ∧
        (watchLoop a st nps).minTimeout = p.timeout ∧
        (∀ np ∈ l1, np.2.ok = true → p.timeout < np.2.timeout) ∧
        (∀ np ∈ l2, np.2.ok = true → p.timeout ≤ np.2.timeout)) := by
  induction nps with
  | nil =>
    intro st
    exact Or.inl ⟨rfl, rfl, rfl, by simp⟩
  | cons hd tl ih =>
    obtain ⟨n0, p0⟩ := hd
    intro st
    have hloop : watchLoop a st ((n0, p0) :: tl) =
        watchLoop a (watchStep a st n0 p0) tl := rfl
    by_cases hacc : p0.ok = true ∧ p0.timeout < st.minTimeout
    · obtain ⟨e1, e2, e3⟩ := watchStep_min_accept a st n0 p0 hacc
      rcases ih (watchStep a st n0 p0) with ⟨f1, f2, f3, hall⟩ |
        ⟨l1, n, p, l2, heq, hok, hlt, f1, f2, f3, hbef, haft⟩
      · refine Or.inr ⟨[], n0, p0, tl, rfl, hacc.1, hacc.2, ?_, ?_, ?_, ?_, ?_⟩
        · rw [hloop, f1, e1]
        · rw [hloop, f2, e2]
        · rw [hloop, f3, e3]
        · intro np hm; cases hm
        · intro np hm hknp
          have hx := hall np hm hknp
          rw [e3] at hx
          exact Int.not_lt.mp hx
      · refine Or.inr ⟨(n0, p0) :: l1, n, p, l2, by rw [heq, List.cons_append], hok, ?_, ?_, ?_, ?_, ?_, haft⟩
        · rw [e3] at hlt
          exact lt_trans hlt hacc.2
        · rw [hloop, f1]
        · rw [hloop, f2]
        · rw [hloop, f3]
        · intro np hm hknp
          rcases List.mem_cons.mp hm with hh | hm'
          · subst hh
            rw [e3] at hlt
            exact hlt
          · exact hbef np hm' hknp
    · obtain ⟨e1, e2, e3⟩ := watchStep_min_reject a st n0 p0 hacc
      rcases ih (watchStep a st n0 p0) with ⟨f1, f2, f3, hall⟩ |
        ⟨l1, n, p, l2, heq, hok, hlt, f1, f2, f3, hbef, haft⟩
      · refine Or.inl ⟨?_, ?_, ?_, ?_⟩
        · rw [hloop, f1, e1]
        · rw [hloop, f2, e2]
        · rw [hloop, f3, e3]
        · intro np hm hknp
          rcases List.mem_cons.mp hm with hh | hm'
          · subst hh
            intro hlt0
            exact hacc ⟨hknp, hlt0⟩
          · have hx := hall np hm' hknp
            rw [e3] at hx
            exact hx
      · refine Or.inr ⟨(n0, p0) :: l1, n, p, l2, by rw [heq, List.cons_append], hok, ?_, ?_, ?_, ?_, ?_, haft⟩
        · rw [e3] at hlt
          exact hlt
        · rw [hloop, f1]
        · rw [hloop, f2]
        · rw [hloop, f3]
        · intro np hm hknp
          rcases List.mem_cons.mp hm with hh | hm'
          · subst hh
            rw [e3] at hlt
            have hge : ¬ p0.timeout < st.minTimeout := fun hx => hacc ⟨hknp, hx⟩
            exact lt_of_lt_of_le hlt (Int.not_lt.mp hge)
          · exact hbef np hm' hknp

/-- Projection of the IPv4 emission condition of `watchDecide`. -/
theorem watchDecide_switchIPv4 (a a6 : String) (t : Int)
    (nps : List (node × probeResult)) :
    (watchDecide a a6 t nps).switchIPv4 =
      (if (watchLoop a (watchInit t) nps).selectedNode = "" ∧
          (watchLoop a (watchInit t) nps).minIP ≠ "" then
        some (watchLoop a (watchInit t) nps).minIP
      else none) := rfl

/-- Projection of the IPv6 emission condition of `watchDecide`. -/
theorem watchDecide_switchIPv6 (a a6 : String) (t : Int)
    (nps : List (node × probeResult)) :
    (watchDecide a a6 t nps).switchIPv6 =
      (if (watchLoop a (watchInit t) nps).selectedNode ≠ "" ∧
          isAddrEqual (watchLoop a (watchInit t) nps).selectedIPv6 a6 = false then
        some (watchLoop a (watchInit t) nps).selectedIPv6
      else if (watchLoop a (watchInit t) nps).selectedNode = "" ∧
          isAddrEqual (watchLoop a (watchInit t) nps).minIPv6 a6 = false then
        some (watchLoop a (watchInit t) nps).minIPv6
      else none) := rfl

/-! ### Claims about the decision engine -/

/-- Claim C1 (amended).  When every node's probe is unhealthy, the cycle
emits no IPv4 switch, and it emits no IPv6 switch exactly when the
advertised IPv6 is empty or unparsable; when a valid IPv6 is advertised it
emits an IPv6 switch with an empty target (an AAAA removal), because the
third emission condition of `watch` compares the untouched empty `minIPv6`
against the advertised IPv6. -/
theorem claim1_theorem (actualIP actualIPv6 : String) (cfgTimeout : Int)
    (nps : List (node × probeResult))
    (h : ∀ np ∈ nps, np.2.ok = false) :
    (watchDecide actualIP actualIPv6 cfgTimeout nps).switchIPv4 = none ∧
    (watchDecide actualIP actualIPv6 cfgTimeout nps).switchIPv6 =
      (if isAddrEqual "" actualIPv6 = true then none else some "") := by
  have hloop := watchLoop_all_fail actualIP nps (watchInit cfgTimeout) h
  constructor
  · rw [watchDecide_switchIPv4, hloop]
    simp [watchInit]
  · rw [watchDecide_switchIPv6, hloop]
    cases hx : isAddrEqual "" actualIPv6 <;> simp [watchInit, hx]

/-- Witness for C1 (amended) on a one-node batch. -/
theorem claim1_witness :
    (watchDecide "10.0.0.1" "" 60
        [(node.mk "a" "10.0.0.1" "2001:db8::1", probeResult.mk false 0)]).switchIPv4 = none ∧
    (watchDecide "10.0.0.1" "" 60
        [(node.mk "a" "10.0.0.1" "2001:db8::1", probeResult.mk false 0)]).switchIPv6 =
      (if isAddrEqual "" "" = true then none else some "") :=
  claim1_theorem "10.0.0.1" "" 60
    [(node.mk "a" "10.0.0.1" "2001:db8::1", probeResult.mk false 0)] (by decide)

/-- Counterexample to C1 as stated: every probe of the batch is unhealthy,
yet with a valid advertised IPv6 the cycle emits an IPv6 switch with empty
target, i.e. an AAAA record-store write is attempted. -/
theorem claim1_counterexample :
    (∀ np ∈ [(node.mk "a" "10.0.0.1" "2001:db8::1", probeResult.mk false 0)],
        np.2.ok = false) ∧
    (watchDecide "10.0.0.1" "2001:db8::5" 60
        [(node.mk "a" "10.0.0.1" "2001:db8::1", probeResult.mk false 0)]).switchIPv6 =
      some "" := by
  exact ⟨by decide, by decide⟩

/-- Claim C2 (amended).  A genuine IPv4 resolution error aborts the cycle
before any decision; a genuine IPv6 resolution error is ignored
(`actualIPv6, _ := lookupDomainIPv6(...)` in `watch`), the cycle running
with an empty advertised IPv6 instead. -/
theorem claim2_theorem :
    (∀ (e : String) (l6 : Except String String) (t : Int)
        (nps : List (node × probeResult)),
        watchCycle (.error e) l6 t nps = none) ∧
    (∀ (a4 e : String) (t : Int) (nps : List (node × probeResult)),
        watchCycle (.ok a4) (.error e) t nps = some (watchDecide a4 "" t nps)) :=
  ⟨fun _ _ _ _ => rfl, fun _ _ _ _ => rfl⟩

/-- Counterexample to C2 as stated: the IPv6 family resolution fails with
a genuine error, yet the cycle does not abort — it still decides and
emits an IPv4 switch. -/
theorem claim2_counterexample :
    watchCycle (.ok "10.0.0.11") (.error "lookup failure") 60
        [(node.mk "b" "10.0.0.12" "", probeResult.mk true 5)] =
      some (decision.mk (some "10.0.0.12") none) := by decide

/-- Claim C3 (amended).  When no healthy node matches the advertised IPv4,
every healthy node has a non-empty configured IPv4, and some healthy node
answers faster than the configured probe timeout, the cycle switches IPv4
to the first batch entry achieving the minimal latency below that timeout
(strictly faster than every healthy entry before it, no slower than any
healthy entry at all), and switches IPv6 to that node's IPv6 unless that
IPv6 already address-equals the advertised one, in which case no IPv6
switch is emitted. -/
theorem claim3_theorem (actualIP actualIPv6 : String) (cfgTimeout : Int)
    (nps : List (node × probeResult))
    (h1 : ∀ np ∈ nps, isAddrEqual np.1.ip actualIP = true → np.2.ok = false)
    (h2 : ∀ np ∈ nps, np.2.ok = true → np.1.ip ≠ "")
    (h3 : ∃ np ∈ nps, np.2.ok = true ∧ np.2.timeout < cfgTimeout) :
    ∃ l1 n p l2, nps = l1 ++ (n, p) :: l2 ∧ p.ok = true ∧
      p.timeout < cfgTimeout ∧
      (∀ np ∈ nps, np.2.ok = true → p.timeout ≤ np.2.timeout) ∧
      (∀ np ∈ l1, np.2.ok = true → p.timeout < np.2.timeout) ∧
      (watchDecide actualIP actualIPv6 cfgTimeout nps).switchIPv4 = some n.ip ∧
      (watchDecide actualIP actualIPv6 cfgTimeout nps).switchIPv6 =
        (if isAddrEqual n.ipv6 actualIPv6 = true then none else some n.ipv6) := by
  have hsel := watchLoop_selected_of_no_match actualIP nps (watchInit cfgTimeout) h1
  rcases watchLoop_min actualIP nps (watchInit cfgTimeout) with
    ⟨_, _, _, hall⟩ | ⟨l1, n, p, l2, heq, hok, hlt, f1, f2, f3, hbef, haft⟩
  · obtain ⟨np, hm, hknp, hltnp⟩ := h3
    exact absurd hltnp (hall np hm hknp)
  · have hmem : (n, p) ∈ nps := by
      rw [heq]
      exact List.mem_append_right l1 (List.mem_cons_self _ _)
    have hmin : ∀ np ∈ nps, np.2.ok = true → p.timeout ≤ np.2.timeout := by
      intro np hm hknp
      rw [heq] at hm
      rcases List.mem_append.mp hm with hm1 | hm2
      · exact le_of_lt (hbef np hm1 hknp)
      · rcases List.mem_cons.mp hm2 with hh | hm3
        · subst hh
          exact le_refl _
        · exact haft np hm3 hknp
    refine ⟨l1, n, p, l2, heq, hok, hlt, hmin, hbef, ?_, ?_⟩
    · rw [watchDecide_switchIPv4, hsel.1, f1]
      simp [watchInit, h2 (n, p) hmem hok]
    · rw [watchDecide_switchIPv6, hsel.1, hsel.2, f2]
      cases hx : isAddrEqual n.ipv6 actualIPv6 <;> simp [watchInit, hx]

/-- Witness for C3 (amended), the spec's failover scenario: A is down,
B answers in 40, C answers in 20; C wins. -/
theorem claim3_witness :
    ∃ l1 n p l2,
      [(node.mk "b" "10.0.0.12" "2001:db8::2", probeResult.mk true 40),
       (node.mk "c" "10.0.0.13" "2001:db8::3", probeResult.mk true 20)] =
        l1 ++ (n, p) :: l2 ∧ p.ok = true ∧ p.timeout < 60 ∧
      (∀ np ∈ [(node.mk "b" "10.0.0.12" "2001:db8::2", probeResult.mk true 40),
               (node.mk "c" "10.0.0.13" "2001:db8::3", probeResult.mk true 20)],
          np.2.ok = true → p.timeout ≤ np.2.timeout) ∧
      (∀ np ∈ l1, np.2.ok = true → p.timeout < np.2.timeout) ∧
      (watchDecide "10.0.0.11" "" 60
        [(node.mk "b" "10.0.0.12" "2001:db8::2", probeResult.mk true 40),
         (node.mk "c" "10.0.0.13" "2001:db8::3", probeResult.mk true 20)]).switchIPv4 =
        some n.ip ∧
      (watchDecide "10.0.0.11" "" 60
        [(node.mk "b" "10.0.0.12" "2001:db8::2", probeResult.mk true 40),
         (node.mk "c" "10.0.0.13" "2001:db8::3", probeResult.mk true 20)]).switchIPv6 =
        (if isAddrEqual n.ipv6 "" = true then none else some n.ipv6) :=
  claim3_theorem "10.0.0.11" "" 60
    [(node.mk "b" "10.0.0.12" "2001:db8::2", probeResult.mk true 40),
     (node.mk "c" "10.0.0.13" "2001:db8::3", probeResult.mk true 20)]
    (by decide) (by decide) (by decide)

/-- Counterexample to C3 as stated: no node matches the advertised IPv4
and node b is healthy and fastest, so an IPv4 switch is emitted — but
b's IPv6 already address-equals the advertised IPv6, so contrary to the
claim no IPv6 switch is emitted at all. -/
theorem claim3_counterexample :
    (∀ np ∈ [(node.mk "b" "10.0.0.12" "2001:db8::7", probeResult.mk true 5)],
        isAddrEqual np.1.ip "10.0.0.11" = false) ∧
    watchDecide "10.0.0.11" "2001:db8::7" 60
        [(node.mk "b" "10.0.0.12" "2001:db8::7", probeResult.mk true 5)] =
      decision.mk (some "10.0.0.12") none := by
  exact ⟨by decide, by decide⟩

/-- Claim C4.  If some node address-matches the advertised IPv4 and its
probe is healthy (all matching healthy nodes carrying a non-empty name —
a node's identity is its name), no IPv4 switch is emitted, whatever the
health or latency of the other nodes. -/
theorem claim4_theorem (actualIP actualIPv6 : String) (cfgTimeout : Int)
    (nps : List (node × probeResult))
    (hmem : ∃ np ∈ nps, isAddrEqual np.1.ip actualIP = true ∧ np.2.ok = true)
    (hnames : ∀ np ∈ nps, isAddrEqual np.1.ip actualIP = true → np.2.ok = true →
        np.1.name ≠ "") :
    (watchDecide actualIP actualIPv6 cfgTimeout nps).switchIPv4 = none := by
  have hne := watchLoop_selected_ne actualIP nps (watchInit cfgTimeout)
    (Or.inl hmem) hnames
  rw [watchDecide_switchIPv4]
  simp [hne]

/-- Witness for C4, the spec's no-switch scenario: the advertised node A
is healthy, B is healthy and faster, C is down; no IPv4 switch. -/
theorem claim4_witness :
    (watchDecide "10.0.0.11" "" 60
      [(node.mk "A" "10.0.0.11" "", probeResult.mk true 50),
       (node.mk "B" "10.0.0.12" "", probeResult.mk true 30),
       (node.mk "C" "10.0.0.13" "", probeResult.mk false 0)]).switchIPv4 = none :=
  claim4_theorem "10.0.0.11" "" 60
    [(node.mk "A" "10.0.0.11" "", probeResult.mk true 50),
     (node.mk "B" "10.0.0.12" "", probeResult.mk true 30),
     (node.mk "C" "10.0.0.13" "", probeResult.mk false 0)]
    (by decide) (by decide)

/-- Claim C9.  Address equality: empty equals empty; empty differs from a
real address; two strings parsing to the same 16-byte address are equal
whatever their textual form (leading zeros in IPv6 groups, IPv4-mapped
IPv6); and an unparsable or empty address equals exactly the unparsable
or empty ones. -/
theorem claim9_theorem :
    isAddrEqual "" "" = true ∧
    isAddrEqual "" "1.2.3.4" = false ∧
    (∀ a b ip, parseIP a = some ip → parseIP b = some ip → isAddrEqual a b = true) ∧
    isAddrEqual "2001:0db8::1" "2001:db8::1" = true ∧
    isAddrEqual "::ffff:1.2.3.4" "1.2.3.4" = true ∧
    (∀ a b, parseIP a = none → (isAddrEqual a b = true ↔ parseIP b = none)) := by
  refine ⟨by decide, by decide, ?_, by decide, by decide, ?_⟩
  · intro a b ip ha hb
    simp [isAddrEqual, ha, hb]
  · intro a b ha
    cases hb : parseIP b with
    | none => simp [isAddrEqual, ha, hb]
    | some x => simp [isAddrEqual, ha, hb]

/-- Witness for C9 at an IPv4-mapped pair. -/
theorem claim9_witness :
    isAddrEqual "::ffff:10.0.0.1" "10.0.0.1" = true :=
  claim9_theorem.2.2.1 "::ffff:10.0.0.1" "10.0.0.1"
    [0, 0, 0, 0, 0, 0, 0, 0, 0, 0, 255, 255, 10, 0, 0, 1] (by decide) (by decide)

/-! ### Helper lemmas about the synchronizer on the faithful store -/

/-- The records `createRecords` appends: one per name, contents and
timestamp fixed, ids consecutive from `base`. -/
def createdRecs (recordType domain ip : String) (now : Int) :
    Nat → List String → List storeRecord
  | _, [] => []
  | base, nm :: rest =>
    ⟨base, recordType, fullname domain nm, ip, now⟩ ::
      createdRecs recordType domain ip now (base + 1) rest

/-- One faithful update applied to the record list. -/
def updOne (recordType rname ip : String) (now : Int) (rid : Nat)
    (rs : List storeRecord) : List storeRecord :=
  rs.map (fun r => if r.id = rid then ⟨rid, recordType, rname, ip, now⟩ else r)

/-- The sequence of faithful updates `setRecords` performs. -/
def updAll (recordType domain ip : String) (now : Int) :
    List (String × cfRecord) → List storeRecord → List storeRecord
  | [], rs => rs
  | (nm, r) :: rest, rs =>
    updAll recordType domain ip now rest (updOne recordType (fullname domain nm) ip now r.id rs)

/-- The sequence of faithful deletes `deleteRecords` performs. -/
def delAll : List (String × cfRecord) → List storeRecord → List storeRecord
  | [], rs => rs
  | (_, r) :: rest, rs => delAll rest (rs.filter (fun x => x.id != r.id))

theorem cfStore_create (now : Int) (st : store) (rtype rname content : String) :
    (cfStore now).create st rtype rname content =
      (⟨st.zones, st.recs ++ [⟨st.nextId, rtype, rname, content, now⟩], st.nextId + 1⟩,
       content) := rfl

theorem cfStore_update (now : Int) (st : store) (rid : Nat) (rtype rname content : String) :
    (cfStore now).update st rid rtype rname content =
      (⟨st.zones, st.recs.map (fun r =>
          if r.id = rid then ⟨rid, rtype, rname, content, now⟩ else r), st.nextId⟩,
       content) := rfl

theorem cfStore_delete (now : Int) (st : store) (rid : Nat) :
    (cfStore now).delete st rid =
      ⟨st.zones, st.recs.filter (fun r => r.id != rid), st.nextId⟩ := rfl

theorem createRecords_cfStore (ip recordType domain : String) (now : Int) :
    ∀ (names : List String) (st : store),
      createRecords (cfStore now) ip recordType domain st names =
        (.ok (), ⟨st.zones, st.recs ++ createdRecs recordType domain ip now st.nextId names,
          st.nextId + names.length⟩) := by
  intro names
  induction names with
  | nil => intro st; simp [createRecords, createdRecs]
  | cons nm rest ih =>
    intro st
    rw [createRecords, cfStore_create]
    simp only [isAddrEqual_refl]
    rw [if_pos trivial, ih]
    simp only [createdRecs, Prod.mk.injEq, store.mk.injEq, List.length_cons, true_and]
    constructor
    · rw [List.append_assoc]
      rfl
    · omega

theorem setRecords_cfStore (ip recordType domain : String) (now : Int) :
    ∀ (records : List (String × cfRecord)) (st : store),
      setRecords (cfStore now) ip recordType domain st records =
        (.ok (), ⟨st.zones, updAll recordType domain ip now records st.recs, st.nextId⟩) := by
  intro records
  induction records with
  | nil => intro st; simp [setRecords, updAll]
  | cons hd rest ih =>
    obtain ⟨nm, r⟩ := hd
    intro st
    rw [setRecords, cfStore_update]
    simp only [isAddrEqual_refl]
    rw [if_pos trivial, ih]
    rfl

theorem deleteRecords_cfStore (now : Int) :
    ∀ (records : List (String × cfRecord)) (st : store),
      deleteRecords (cfStore now) st records =
        (.ok (), ⟨st.zones, delAll records st.recs, st.nextId⟩) := by
  intro records
  induction records with
  | nil => intro st; simp [deleteRecords, delAll]
  | cons hd rest ih =>
    obtain ⟨nm, r⟩ := hd
    intro st
    rw [deleteRecords, cfStore_delete, ih]
    rfl

/-- Updates preserve the property of carrying the written content on a
given id. -/
theorem updAll_pres (recordType domain ip : String) (now : Int) (i : Nat) :
    ∀ (records : List (String × cfRecord)) (rs : List storeRecord),
      (∀ r ∈ rs, r.id = i → r.content = ip ∧ r.modified = now) →
      ∀ r ∈ updAll recordType domain ip now records rs, r.id = i →
        r.content = ip ∧ r.modified = now := by
  intro records
  induction records with
  | nil => intro rs h; exact h
  | cons hd rest ih =>
    obtain ⟨nm, cr⟩ := hd
    intro rs h
    apply ih
    intro r hr hid
    obtain ⟨r0, hr0, hf⟩ := List.mem_map.mp hr
    by_cases hc : r0.id = cr.id
    · rw [← hf]
      simp [hc]
    · rw [← hf] at hid ⊢
      simp only [if_neg hc] at hid ⊢
      exact h r0 hr0 hid

/-- Every loaded record's id carries the written content after the full
update sequence. -/
theorem updAll_content (recordType domain ip : String) (now : Int) :
    ∀ (records : List (String × cfRecord)) (rs : List storeRecord)
      (nm : String) (cr : cfRecord), (nm, cr) ∈ records →
      ∀ r ∈ updAll recordType domain ip now records rs, r.id = cr.id →
        r.content = ip ∧ r.modified = now := by
  intro records
  induction records with
  | nil =>
    intro rs nm cr hmem
    cases hmem
  | cons hd rest ih =>
    obtain ⟨nm0, cr0⟩ := hd
    intro rs nm cr hmem
    rcases List.mem_cons.mp hmem with hh | hm'
    · have hcr : cr = cr0 := congrArg Prod.snd hh
      subst hcr
      apply updAll_pres recordType domain ip now cr.id rest
      intro r hr hid
      obtain ⟨r0, hr0, hf⟩ := List.mem_map.mp hr
      by_cases hc : r0.id = cr.id
      · rw [← hf]
        simp [hc]
      · rw [← hf] at hid
        simp only [if_neg hc] at hid
        exact absurd hid hc
    · exact ih _ nm cr hm'

/-- A record surviving the delete sequence was present before and matches
none of the deleted ids. -/
theorem delAll_mem :
    ∀ (records : List (String × cfRecord)) (rs : List storeRecord) (r : storeRecord),
      r ∈ delAll records rs → r ∈ rs ∧ ∀ p ∈ records, r.id ≠ p.2.id := by
  intro records
  induction records with
  | nil =>
    intro rs r h
    exact ⟨h, by simp⟩
  | cons hd rest ih =>
    obtain ⟨nm, cr⟩ := hd
    intro rs r h
    obtain ⟨hin, hall⟩ := ih _ r h
    have hfil := List.mem_filter.mp hin
    refine ⟨hfil.1, ?_⟩
    intro p hp
    rcases List.mem_cons.mp hp with hh | hp'
    · subst hh
      simpa using hfil.2
    · exact hall p hp'

/-- A missing family for any requested name makes the whole load the
not-found sentinel, whatever the other names hold. -/
theorem loadRecords_notFound (api : storeAPI σ) (st : σ) (domain recordType : String) :
    ∀ names : List String,
      (∃ nm ∈ names, api.listFor st recordType (fullname domain nm) = []) →
      loadRecords api st domain recordType names = .error .notFound := by
  intro names
  induction names with
  | nil =>
    rintro ⟨nm, hm, _⟩
    cases hm
  | cons nm0 rest ih =>
    rintro ⟨nm, hm, hempty⟩
    cases hl : api.listFor st recordType (fullname domain nm0) with
    | nil => simp [loadRecords, hl]
    | cons r rs =>
      rcases List.mem_cons.mp hm with hh | hm'
      · subst hh
        rw [hempty] at hl
        cases hl
      · simp [loadRecords, hl, ih ⟨nm, hm', hempty⟩]

/-! ### Claims about the record synchronizer -/

/-- Claim C5.  AAAA reconciliation follows the apply table: not-found with
a non-empty target creates one record per name with the target content;
not-found with an empty target succeeds without touching the store; found
with a non-empty target applies the cooldown guard and then updates every
loaded record; found with an empty target deletes every loaded record with
no cooldown hypothesis at all; and the concrete create, delete, create
lifecycle from an empty store. -/
theorem claim5_theorem :
    (∀ (st : store) (z : String) (acc : cfAccount) (now : Int) (src tgt : String),
        st.zones = [z] →
        loadRecords (cfStore now) st acc.domain "AAAA" acc.names = .error .notFound →
        tgt ≠ "" →
        moveRecordsIPv6 (cfStore now) st acc now src tgt =
          (.ok (), ⟨st.zones,
            st.recs ++ createdRecs "AAAA" acc.domain tgt now st.nextId acc.names,
            st.nextId + acc.names.length⟩)) ∧
    (∀ (st : store) (z : String) (acc : cfAccount) (now : Int) (src : String),
        st.zones = [z] →
        loadRecords (cfStore now) st acc.domain "AAAA" acc.names = .error .notFound →
        moveRecordsIPv6 (cfStore now) st acc now src "" = (.ok (), st)) ∧
    (∀ (st : store) (z : String) (acc : cfAccount) (now : Int) (src tgt : String)
        (records : List (String × cfRecord)),
        st.zones = [z] →
        loadRecords (cfStore now) st acc.domain "AAAA" acc.names = .ok records →
        tgt ≠ "" →
        now - (mapGet records "@").modified < tenMinutes →
        moveRecordsIPv6 (cfStore now) st acc now src tgt =
          (.error (.msg "record updated recently"), st)) ∧
    (∀ (st : store) (z : String) (acc : cfAccount) (now : Int) (src tgt : String)
        (records : List (String × cfRecord)),
        st.zones = [z] →
        loadRecords (cfStore now) st acc.domain "AAAA" acc.names = .ok records →
        tgt ≠ "" →
        ¬ now - (mapGet records "@").modified < tenMinutes →
        (moveRecordsIPv6 (cfStore now) st acc now src tgt).1 = .ok () ∧
        (∀ (nm : String) (cr : cfRecord), (nm, cr) ∈ records →
          ∀ r ∈ (moveRecordsIPv6 (cfStore now) st acc now src tgt).2.recs,
            r.id = cr.id → r.content = tgt ∧ r.modified = now)) ∧
    (∀ (st : store) (z : String) (acc : cfAccount) (now : Int) (src : String)
        (records : List (String × cfRecord)),
        st.zones = [z] →
        loadRecords (cfStore now) st acc.domain "AAAA" acc.names = .ok records →
        (moveRecordsIPv6 (cfStore now) st acc now src "").1 = .ok () ∧
        (∀ (nm : String) (cr : cfRecord), (nm, cr) ∈ records →
          ∀ r ∈ (moveRecordsIPv6 (cfStore now) st acc now src "").2.recs,
            r.id ≠ cr.id)) ∧
    (moveRecordsIPv6 (cfStore 1000) (store.mk ["z"] [] 0)
        (cfAccount.mk "d" ["@", "www"]) 1000 "" "2001:db8::1" =
      (.ok (), store.mk ["z"]
        [storeRecord.mk 0 "AAAA" "d" "2001:db8::1" 1000,
         storeRecord.mk 1 "AAAA" "www.d" "2001:db8::1" 1000] 2)) ∧
    (moveRecordsIPv6 (cfStore 1100)
        (store.mk ["z"]
          [storeRecord.mk 0 "AAAA" "d" "2001:db8::1" 1000,
           storeRecord.mk 1 "AAAA" "www.d" "2001:db8::1" 1000] 2)
        (cfAccount.mk "d" ["@", "www"]) 1100 "" "" =
      (.ok (), store.mk ["z"] [] 2)) ∧
    (moveRecordsIPv6 (cfStore 1200) (store.mk ["z"] [] 2)
        (cfAccount.mk "d" ["@", "www"]) 1200 "" "2001:db8::1" =
      (.ok (), store.mk ["z"]
        [storeRecord.mk 2 "AAAA" "d" "2001:db8::1" 1200,
         storeRecord.mk 3 "AAAA" "www.d" "2001:db8::1" 1200] 4)) := by
  refine ⟨?_, ?_, ?_, ?_, ?_, rfl, rfl, rfl⟩
  · intro st z acc now src tgt hz hload htgt
    have hzone : loadZone (cfStore now) st acc.domain = .ok () := by
      simp [loadZone, cfStore, hz]
    simp only [moveRecordsIPv6, hzone, hload]
    rw [if_pos htgt]
    exact createRecords_cfStore tgt "AAAA" acc.domain now acc.names st
  · intro st z acc now src hz hload
    have hzone : loadZone (cfStore now) st acc.domain = .ok () := by
      simp [loadZone, cfStore, hz]
    simp [moveRecordsIPv6, hzone, hload]
  · intro st z acc now src tgt records hz hload htgt hrec
    have hzone : loadZone (cfStore now) st acc.domain = .ok () := by
      simp [loadZone, cfStore, hz]
    simp only [moveRecordsIPv6, hzone, hload]
    rw [if_pos htgt, if_pos hrec]
  · intro st z acc now src tgt records hz hload htgt hrec
    have hzone : loadZone (cfStore now) st acc.domain = .ok () := by
      simp [loadZone, cfStore, hz]
    have hmv : moveRecordsIPv6 (cfStore now) st acc now src tgt =
        (.ok (), ⟨st.zones, updAll "AAAA" acc.domain tgt now records st.recs, st.nextId⟩) := by
      simp only [moveRecordsIPv6, hzone, hload]
      rw [if_pos htgt, if_neg hrec]
      exact setRecords_cfStore tgt "AAAA" acc.domain now records st
    rw [hmv]
    refine ⟨rfl, ?_⟩
    intro nm cr hmem r hr hid
    exact updAll_content "AAAA" acc.domain tgt now records st.recs nm cr hmem r hr hid
  · intro st z acc now src records hz hload
    have hzone : loadZone (cfStore now) st acc.domain = .ok () := by
      simp [loadZone, cfStore, hz]
    have hmv : moveRecordsIPv6 (cfStore now) st acc now src "" =
        (.ok (), ⟨st.zones, delAll records st.recs, st.nextId⟩) := by
      simp only [moveRecordsIPv6, hzone, hload]
      rw [if_neg (by simp)]
      exact deleteRecords_cfStore now records st
    rw [hmv]
    refine ⟨rfl, ?_⟩
    intro nm cr hmem r hr
    exact (delAll_mem records st.recs r hr).2 (nm, cr) hmem

/-- Witness for C5, instantiating the not-found no-op case. -/
theorem claim5_witness :
    moveRecordsIPv6 (cfStore 50) (store.mk ["z"] [] 0)
        (cfAccount.mk "d" ["@", "www"]) 50 "" "" =
      (.ok (), store.mk ["z"] [] 0) :=
  claim5_theorem.2.1 (store.mk ["z"] [] 0) "z" (cfAccount.mk "d" ["@", "www"]) 50 ""
    rfl rfl

/-- Claim C6.  With records found and a non-empty target, an anchor
record modified less than ten minutes ago makes `moveRecordsIPv6` (and
`moveRecords`, once the source assertion passes) fail with the cooldown
error and leave the state untouched; and concretely, a second identical
reconciliation 300 seconds after a successful one fails with that error
instead of writing again. -/
theorem claim6_theorem :
    (∀ (σ : Type) (api : storeAPI σ) (st : σ) (acc : cfAccount) (now : Int)
        (src tgt : String) (records : List (String × cfRecord)),
        loadZone api st acc.domain = .ok () →
        loadRecords api st acc.domain "AAAA" acc.names = .ok records →
        tgt ≠ "" →
        now - (mapGet records "@").modified < tenMinutes →
        moveRecordsIPv6 api st acc now src tgt =
          (.error (.msg "record updated recently"), st)) ∧
    (∀ (σ : Type) (api : storeAPI σ) (st : σ) (acc : cfAccount) (now : Int)
        (src tgt : String) (records : List (String × cfRecord)),
        loadZone api st acc.domain = .ok () →
        loadRecords api st acc.domain "A" acc.names = .ok records →
        (src = "" ∨ isAddrEqual (mapGet records "@").content src = true) →
        now - (mapGet records "@").modified < tenMinutes →
        moveRecords api st acc now src tgt =
          (.error (.msg "record updated recently"), st)) ∧
    (moveRecordsIPv6 (cfStore 100000)
        (store.mk ["z"] [storeRecord.mk 0 "AAAA" "d" "2001:db8::5" 0] 1)
        (cfAccount.mk "d" ["@"]) 100000 "" "2001:db8::1" =
      (.ok (), store.mk ["z"] [storeRecord.mk 0 "AAAA" "d" "2001:db8::1" 100000] 1)) ∧
    (moveRecordsIPv6 (cfStore 100300)
        (store.mk ["z"] [storeRecord.mk 0 "AAAA" "d" "2001:db8::1" 100000] 1)
        (cfAccount.mk "d" ["@"]) 100300 "" "2001:db8::1" =
      (.error (.msg "record updated recently"),
       store.mk ["z"] [storeRecord.mk 0 "AAAA" "d" "2001:db8::1" 100000] 1)) := by
  refine ⟨?_, ?_, rfl, rfl⟩
  · intro σ api st acc now src tgt records hz hl htgt hrec
    simp only [moveRecordsIPv6, hz, hl]
    rw [if_pos htgt, if_pos hrec]
  · intro σ api st acc now src tgt records hz hl hok hrec
    rcases hok with hempty | htrue
    · subst hempty
      simp only [moveRecords, hz, hl]
      rw [if_neg (by simp), if_pos hrec]
    · simp only [moveRecords, hz, hl]
      rw [if_neg (by simp [htrue]), if_pos hrec]

/-- Witness for C6's general cooldown guard. -/
theorem claim6_witness :
    moveRecordsIPv6 (cfStore 100100)
        (store.mk ["z"] [storeRecord.mk 0 "AAAA" "d" "2001:db8::1" 100000] 1)
        (cfAccount.mk "d" ["@"]) 100100 "" "2001:db8::2" =
      (.error (.msg "record updated recently"),
       store.mk ["z"] [storeRecord.mk 0 "AAAA" "d" "2001:db8::1" 100000] 1) :=
  claim6_theorem.1 store (cfStore 100100)
    (store.mk ["z"] [storeRecord.mk 0 "AAAA" "d" "2001:db8::1" 100000] 1)
    (cfAccount.mk "d" ["@"]) 100100 "" "2001:db8::2"
    [("@", cfRecord.mk 0 "2001:db8::1" 100000)] rfl rfl (by decide) (by decide)

/-- The echo checks `setRecords` performs along its run. -/
def setEchoOK (api : storeAPI σ) (ip recordType domain : String) :
    σ → List (String × cfRecord) → Bool
  | _, [] => true
  | st, (nm, r) :: rest =>
    isAddrEqual (api.update st r.id recordType (fullname domain nm) ip).2 ip &&
    setEchoOK api ip recordType domain
      (api.update st r.id recordType (fullname domain nm) ip).1 rest

/-- The echo checks `createRecords` performs along its run. -/
def createEchoOK (api : storeAPI σ) (ip recordType domain : String) :
    σ → List String → Bool
  | _, [] => true
  | st, nm :: rest =>
    isAddrEqual (api.create st recordType (fullname domain nm) ip).2 ip &&
    createEchoOK api ip recordType domain
      (api.create st recordType (fullname domain nm) ip).1 rest

/-- Claim C7.  For any store behaviour, an update or create run succeeds
exactly when every echoed content address-equals the requested target
(a mismatch is never swallowed), and a divergent echo on the next record
yields the error naming the value still stored. -/
theorem claim7_theorem :
    (∀ (σ : Type) (api : storeAPI σ) (ip recordType domain : String) (st : σ)
        (records : List (String × cfRecord)),
        (setRecords api ip recordType domain st records).1 = .ok () ↔
        setEchoOK api ip recordType domain st records = true) ∧
    (∀ (σ : Type) (api : storeAPI σ) (ip recordType domain : String) (st : σ)
        (names : List String),
        (createRecords api ip recordType domain st names).1 = .ok () ↔
        createEchoOK api ip recordType domain st names = true) ∧
    (∀ (σ : Type) (api : storeAPI σ) (ip recordType domain : String) (st : σ)
        (nm : String) (r : cfRecord) (rest : List (String × cfRecord)),
        isAddrEqual (api.update st r.id recordType (fullname domain nm) ip).2 ip = false →
        (setRecords api ip recordType domain st ((nm, r) :: rest)).1 =
          .error (.msg ("set record " ++ nm ++ " to " ++ ip ++ " error, still " ++
            (api.update st r.id recordType (fullname domain nm) ip).2))) ∧
    (∀ (σ : Type) (api : storeAPI σ) (ip recordType domain : String) (st : σ)
        (nm : String) (rest : List String),
        isAddrEqual (api.create st recordType (fullname domain nm) ip).2 ip = false →
        (createRecords api ip recordType domain st (nm :: rest)).1 =
          .error (.msg ("set record " ++ nm ++ " to " ++ ip ++ " error, still " ++
            (api.create st recordType (fullname domain nm) ip).2))) := by
  refine ⟨?_, ?_, ?_, ?_⟩
  · intro σ api ip recordType domain st records
    induction records generalizing st with
    | nil => simp [setRecords, setEchoOK]
    | cons hd rest ih =>
      obtain ⟨nm, r⟩ := hd
      by_cases hc : isAddrEqual (api.update st r.id recordType (fullname domain nm) ip).2 ip = true
      · simp [setRecords, setEchoOK, hc, ih]
      · have hcf := Bool.eq_false_iff.mpr (fun hx => hc hx)
        simp [setRecords, setEchoOK, hcf]
  · intro σ api ip recordType domain st names
    induction names generalizing st with
    | nil => simp [createRecords, createEchoOK]
    | cons nm rest ih =>
      by_cases hc : isAddrEqual (api.create st recordType (fullname domain nm) ip).2 ip = true
      · simp [createRecords, createEchoOK, hc, ih]
      · have hcf := Bool.eq_false_iff.mpr (fun hx => hc hx)
        simp [createRecords, createEchoOK, hcf]
  · intro σ api ip recordType domain st nm r rest h
    simp [setRecords, h]
  · intro σ api ip recordType domain st nm rest h
    simp [createRecords, h]

/-- Witness for C7: a store echoing a fixed wrong value makes the update
run fail with the error naming that value. -/
theorem claim7_witness :
    (setRecords (skewStore "9.9.9.9") "1.2.3.4" "A" "d" ()
        [("@", cfRecord.mk 0 "1.1.1.1" 0)]).1 =
      .error (.msg ("set record " ++ "@" ++ " to " ++ "1.2.3.4" ++ " error, still " ++
        ((skewStore "9.9.9.9").update () 0 "A" (fullname "d" "@") "1.2.3.4").2)) :=
  claim7_theorem.2.2.1 Unit (skewStore "9.9.9.9") "1.2.3.4" "A" "d" () "@"
    (cfRecord.mk 0 "1.1.1.1" 0) [] (by decide)

/-- Claim C8.  In the A family, a non-empty source that does not
address-equal the loaded anchor content aborts `moveRecords` with the
error naming the current content, before any write; and `moveRecordsIPv6`
performs no source check at all: its result never depends on the source
argument. -/
theorem claim8_theorem :
    (∀ (σ : Type) (api : storeAPI σ) (st : σ) (acc : cfAccount) (now : Int)
        (src tgt : String) (records : List (String × cfRecord)),
        loadZone api st acc.domain = .ok () →
        loadRecords api st acc.domain "A" acc.names = .ok records →
        src ≠ "" →
        isAddrEqual (mapGet records "@").content src = false →
        moveRecords api st acc now src tgt =
          (.error (.msg ("stated IP is " ++ (mapGet records "@").content)), st)) ∧
    (∀ (σ : Type) (api : storeAPI σ) (st : σ) (acc : cfAccount) (now : Int)
        (s1 s2 tgt : String),
        moveRecordsIPv6 api st acc now s1 tgt = moveRecordsIPv6 api st acc now s2 tgt) := by
  constructor
  · intro σ api st acc now src tgt records hz hl hs hm
    simp only [moveRecords, hz, hl]
    rw [if_pos ⟨hs, hm⟩]
  · intro σ api st acc now s1 s2 tgt
    rfl

/-- Witness for C8's source guard on the faithful store. -/
theorem claim8_witness :
    moveRecords (cfStore 1000000)
        (store.mk ["z"] [storeRecord.mk 0 "A" "d" "10.0.0.5" 0] 1)
        (cfAccount.mk "d" ["@"]) 1000000 "10.0.0.9" "10.0.0.7" =
      (.error (.msg ("stated IP is " ++
        (mapGet [("@", cfRecord.mk 0 "10.0.0.5" 0)] "@").content)),
       store.mk ["z"] [storeRecord.mk 0 "A" "d" "10.0.0.5" 0] 1) :=
  claim8_theorem.1 store (cfStore 1000000)
    (store.mk ["z"] [storeRecord.mk 0 "A" "d" "10.0.0.5" 0] 1)
    (cfAccount.mk "d" ["@"]) 1000000 "10.0.0.9" "10.0.0.7"
    [("@", cfRecord.mk 0 "10.0.0.5" 0)] rfl rfl (by decide) (by decide)

/-- Claim C10.  The load step returns the not-found sentinel as soon as
any one requested name has no record of the family, whatever the other
names hold; consequently, with an AAAA record present for `www` but none
for `@`, the AAAA reconciliation takes the create path and creates one
record per configured name — leaving `www` with two records. -/
theorem claim10_theorem :
    (∀ (σ : Type) (api : storeAPI σ) (st : σ) (domain recordType : String)
        (names : List String),
        (∃ nm ∈ names, api.listFor st recordType (fullname domain nm) = []) →
        loadRecords api st domain recordType names = .error .notFound) ∧
    ((cfStore 700).listFor
        (store.mk ["z"] [storeRecord.mk 0 "AAAA" "www.d" "2001:db8::9" 0] 1)
        "AAAA" (fullname "d" "@") = [] ∧
     ((cfStore 700).listFor
        (store.mk ["z"] [storeRecord.mk 0 "AAAA" "www.d" "2001:db8::9" 0] 1)
        "AAAA" (fullname "d" "www")).length = 1 ∧
     moveRecordsIPv6 (cfStore 700)
        (store.mk ["z"] [storeRecord.mk 0 "AAAA" "www.d" "2001:db8::9" 0] 1)
        (cfAccount.mk "d" ["@", "www"]) 700 "" "2001:db8::1" =
      (.ok (), store.mk ["z"]
        [storeRecord.mk 0 "AAAA" "www.d" "2001:db8::9" 0,
         storeRecord.mk 1 "AAAA" "d" "2001:db8::1" 700,
         storeRecord.mk 2 "AAAA" "www.d" "2001:db8::1" 700] 3)) := by
  refine ⟨?_, rfl, rfl, rfl⟩
  intro σ api st domain recordType names h
  exact loadRecords_notFound api st domain recordType names h

/-- Witness for C10's load behaviour on the partial-presence store. -/
theorem claim10_witness :
    loadRecords (cfStore 700)
        (store.mk ["z"] [storeRecord.mk 0 "AAAA" "www.d" "2001:db8::9" 0] 1)
        "d" "AAAA" ["@", "www"] = .error .notFound :=
  claim10_theorem.1 store (cfStore 700)
    (store.mk ["z"] [storeRecord.mk 0 "AAAA" "www.d" "2001:db8::9" 0] 1)
    "d" "AAAA" ["@", "www"] ⟨"@", by decide, rfl⟩
